import Mathlib

/-!
Shallow embedding of the melior binding layer (affine expressions, affine
maps, integer sets) and of the documented surface of the wrapped foreign
library, with proofs of the specified properties.

The binding code under `src/melior/src` is embedded directly.  The wrapped
foreign library is reachable only through an opaque handle ABI; its entry
points are modelled from the spec and from the binding's own doc comments,
each such definition marked `Modelled from the spec:`.
-/

namespace Melior

/-- An owning context.  The binding treats it as an opaque arena handle;
only its identity matters here. -/
structure Context where
  id : Nat
deriving DecidableEq, Repr

/-- Modelled from the spec: the foreign affine-expression value — a tree of
dimension/symbol/constant leaves combined by add/mul/mod/floor-div/ceil-div
operators (spec glossary).  The foreign library interns these values, so a
raw handle is identified with the value it denotes. -/
inductive MlirAffineExpr where
  | dim (position : Int)
  | symbol (position : Int)
  | constant (value : Int)
  | add (lhs rhs : MlirAffineExpr)
  | mul (lhs rhs : MlirAffineExpr)
  | mod (lhs rhs : MlirAffineExpr)
  | floorDiv (lhs rhs : MlirAffineExpr)
  | ceilDiv (lhs rhs : MlirAffineExpr)
deriving DecidableEq, Repr

/-- Modelled from the spec: "Creates an affine dimension expression with
'position' in the context." -/
def mlirAffineDimExprGet (_context : Context) (position : Int) : MlirAffineExpr :=
  .dim position

/-- Modelled from the spec: "Returns the position of the given affine
dimension expression."  Calling it on a non-dimension expression is
undefined behaviour at the foreign boundary; the model returns 0 there. -/
def mlirAffineDimExprGetPosition : MlirAffineExpr → Int
  | .dim p => p
  | _ => 0

/-- Modelled from the spec: "Creates an affine constant expression with
'constant' in the context." -/
def mlirAffineConstantExprGet (_context : Context) (constant : Int) : MlirAffineExpr :=
  .constant constant

/-- Modelled from the spec: "Returns the value of the given affine constant
expression."  Undefined behaviour on other variants; the model returns 0. -/
def mlirAffineConstantExprGetValue : MlirAffineExpr → Int
  | .constant v => v
  | _ => 0

/-- Modelled from the spec: "Creates an affine add expression with 'lhs'
and 'rhs'." -/
def mlirAffineAddExprGet (lhs rhs : MlirAffineExpr) : MlirAffineExpr :=
  .add lhs rhs

/-- Modelled from the spec: "Creates an affine mul expression with 'lhs'
and 'rhs'." -/
def mlirAffineMulExprGet (lhs rhs : MlirAffineExpr) : MlirAffineExpr :=
  .mul lhs rhs

/-- Modelled from the spec: creates an affine mod expression with 'lhs'
and 'rhs'. -/
def mlirAffineModExprGet (lhs rhs : MlirAffineExpr) : MlirAffineExpr :=
  .mod lhs rhs

/-- Modelled from the spec: "Creates an affine floor division expression
with 'lhs' and 'rhs'." -/
def mlirAffineFloorDivExprGet (lhs rhs : MlirAffineExpr) : MlirAffineExpr :=
  .floorDiv lhs rhs

/-- Modelled from the spec: "Creates an affine ceiling division expression
with 'lhs' and 'rhs'." -/
def mlirAffineCeilDivExprGet (lhs rhs : MlirAffineExpr) : MlirAffineExpr :=
  .ceilDiv lhs rhs

/-- Modelled from the spec: "Checks whether the given affine expression is
a binary expression" — true exactly on the five operator nodes. -/
def mlirAffineExprIsABinary : MlirAffineExpr → Bool
  | .add _ _ | .mul _ _ | .mod _ _ | .floorDiv _ _ | .ceilDiv _ _ => true
  | _ => false

/-- Modelled from the spec: "Returns the left hand side affine expression
of the given affine binary operation expression."  Undefined behaviour on
non-binary expressions; the model returns the expression itself. -/
def mlirAffineBinaryOpExprGetLHS : MlirAffineExpr → MlirAffineExpr
  | .add l _ | .mul l _ | .mod l _ | .floorDiv l _ | .ceilDiv l _ => l
  | e => e

/-- Modelled from the spec: returns the right hand side affine expression
of the given affine binary operation expression.  Undefined behaviour on
non-binary expressions; the model returns the expression itself. -/
def mlirAffineBinaryOpExprGetRHS : MlirAffineExpr → MlirAffineExpr
  | .add _ r | .mul _ r | .mod _ r | .floorDiv _ r | .ceilDiv _ r => r
  | e => e

/-- Modelled from the spec: the delegated deep-equality check on affine
expressions.  The library interns structurally identical values, so the
check coincides with structural equality of the denoted values. -/
def mlirAffineExprEqual (lhs rhs : MlirAffineExpr) : Bool :=
  decide (lhs = rhs)

/-- The `AffineExpr` wrapper of `src/melior/src/affine_expr.rs`: a raw
foreign handle paired with a phantom context lifetime (zero-sized, so only
the raw handle is data). -/
structure AffineExpr where
  raw : MlirAffineExpr
deriving DecidableEq, Repr

/-- `AffineExpr::from_raw` (affine_expr.rs:29-34): wraps a raw handle. -/
def AffineExpr.from_raw (raw : MlirAffineExpr) : AffineExpr :=
  ⟨raw⟩

/-- `AffineExpr::to_raw` (affine_expr.rs:25-27): reads the raw handle. -/
def AffineExpr.to_raw (e : AffineExpr) : MlirAffineExpr :=
  e.raw

/-- The derived `Copy` of `AffineExpr` (affine_expr.rs:18): a field-wise
bit copy of the wrapper struct. -/
def AffineExpr.copy (e : AffineExpr) : AffineExpr :=
  ⟨e.raw⟩

/-- `AffineExpr::new_dimension` (affine_expr.rs:79-81). -/
def AffineExpr.new_dimension (context : Context) (position : Int) : AffineExpr :=
  AffineExpr.from_raw (mlirAffineDimExprGet context position)

/-- `AffineExpr::dimension_position` (affine_expr.rs:84-86). -/
def AffineExpr.dimension_position (e : AffineExpr) : Int :=
  mlirAffineDimExprGetPosition e.raw

/-- `AffineExpr::new_constant` (affine_expr.rs:98-100). -/
def AffineExpr.new_constant (context : Context) (constant : Int) : AffineExpr :=
  AffineExpr.from_raw (mlirAffineConstantExprGet context constant)

/-- `AffineExpr::constant_value` (affine_expr.rs:103-105). -/
def AffineExpr.constant_value (e : AffineExpr) : Int :=
  mlirAffineConstantExprGetValue e.raw

/-- `AffineExpr::add` (affine_expr.rs:113-115). -/
def AffineExpr.add (lhs rhs : AffineExpr) : AffineExpr :=
  AffineExpr.from_raw (mlirAffineAddExprGet lhs.to_raw rhs.to_raw)

/-- `AffineExpr::multiply` (affine_expr.rs:123-125). -/
def AffineExpr.multiply (lhs rhs : AffineExpr) : AffineExpr :=
  AffineExpr.from_raw (mlirAffineMulExprGet lhs.to_raw rhs.to_raw)

/-- `AffineExpr::modulus` (affine_expr.rs:133-135). -/
def AffineExpr.modulus (lhs rhs : AffineExpr) : AffineExpr :=
  AffineExpr.from_raw (mlirAffineModExprGet lhs.to_raw rhs.to_raw)

/-- `AffineExpr::floor_div` (affine_expr.rs:143-145). -/
def AffineExpr.floor_div (lhs rhs : AffineExpr) : AffineExpr :=
  AffineExpr.from_raw (mlirAffineFloorDivExprGet lhs.to_raw rhs.to_raw)

/-- `AffineExpr::ceil_div` (affine_expr.rs:153-155). -/
def AffineExpr.ceil_div (lhs rhs : AffineExpr) : AffineExpr :=
  AffineExpr.from_raw (mlirAffineCeilDivExprGet lhs.to_raw rhs.to_raw)

/-- `AffineExpr::is_binary` (affine_expr.rs:158-160). -/
def AffineExpr.is_binary (e : AffineExpr) : Bool :=
  mlirAffineExprIsABinary e.raw

/-- `AffineExpr::binary_lhs` (affine_expr.rs:164-166). -/
def AffineExpr.binary_lhs (e : AffineExpr) : AffineExpr :=
  AffineExpr.from_raw (mlirAffineBinaryOpExprGetLHS e.raw)

/-- `AffineExpr::binary_rhs` (affine_expr.rs:170-172). -/
def AffineExpr.binary_rhs (e : AffineExpr) : AffineExpr :=
  AffineExpr.from_raw (mlirAffineBinaryOpExprGetRHS e.raw)

/-- The `PartialEq` impl for `AffineExpr` (affine_expr.rs:177-181):
equality delegated to the foreign deep comparison. -/
def AffineExpr.eq (lhs rhs : AffineExpr) : Bool :=
  mlirAffineExprEqual lhs.raw rhs.raw

/-- The content of a non-null foreign affine map: an ordered tuple of
result expressions over a fixed dimension/symbol arity (spec §4.2). -/
structure AffineMapData where
  dimCount : Int
  symbolCount : Int
  results : List MlirAffineExpr
deriving DecidableEq, Repr

/-- Modelled from the spec: the foreign affine-map handle value — either
the null sentinel ("a foreign-defined absent-value marker", spec glossary)
or an interned map value.  Interning identifies a raw handle with the map
value it denotes. -/
inductive MlirAffineMap where
  | null
  | interned (data : AffineMapData)
deriving DecidableEq, Repr

/-- Modelled from the spec: the number of results of an affine map.
Undefined behaviour on the null sentinel; the model returns 0. -/
def mlirAffineMapGetNumResults : MlirAffineMap → Int
  | .null => 0
  | .interned d => d.results.length

/-- Modelled from the spec and the binding's doc comment
(affine_map.rs:197-200): the most major `numResults` results; the null
map if `numResults` is zero; the map itself if `numResults` is greater
than or equal to its number of results (the zero case taking precedence). -/
def mlirAffineMapGetMajorSubMap (m : MlirAffineMap) (numResults : Int) : MlirAffineMap :=
  match m with
  | .null => .null
  | .interned d =>
    if numResults = 0 then .null
    else if (d.results.length : Int) ≤ numResults then .interned d
    else .interned ⟨d.dimCount, d.symbolCount, d.results.take numResults.toNat⟩

/-- Modelled from the spec and the binding's doc comment
(affine_map.rs:205-208): the most minor `numResults` results; the null
map if `numResults` is zero; the map itself if `numResults` is greater
than or equal to its number of results (the zero case taking precedence). -/
def mlirAffineMapGetMinorSubMap (m : MlirAffineMap) (numResults : Int) : MlirAffineMap :=
  match m with
  | .null => .null
  | .interned d =>
    if numResults = 0 then .null
    else if (d.results.length : Int) ≤ numResults then .interned d
    else .interned ⟨d.dimCount, d.symbolCount,
      d.results.drop (d.results.length - numResults.toNat)⟩

/-- Modelled from the spec: the `pos`-th result expression of the map.
Out-of-bounds positions and the null sentinel are undefined behaviour; the
model returns a zero constant there. -/
def mlirAffineMapGetResult (m : MlirAffineMap) (pos : Int) : MlirAffineExpr :=
  match m with
  | .null => .constant 0
  | .interned d => d.results.getD pos.toNat (.constant 0)

/-- Modelled from the spec: the delegated deep-equality check on affine
maps.  Interning makes it coincide with structural equality of denoted
values; the null sentinel equals only itself. -/
def mlirAffineMapEqual (lhs rhs : MlirAffineMap) : Bool :=
  decide (lhs = rhs)

/-- The `AffineMap` wrapper of `src/melior/src/ir/affine_map.rs`: a raw
foreign handle paired with a phantom context lifetime. -/
structure AffineMap where
  raw : MlirAffineMap
deriving DecidableEq, Repr

/-- `AffineMap::from_raw` (affine_map.rs:130-135). -/
def AffineMap.from_raw (raw : MlirAffineMap) : AffineMap :=
  ⟨raw⟩

/-- `AffineMap::to_raw` (affine_map.rs:31-33). -/
def AffineMap.to_raw (m : AffineMap) : MlirAffineMap :=
  m.raw

/-- The derived `Copy` of `AffineMap` (affine_map.rs:24): a field-wise bit
copy of the wrapper struct. -/
def AffineMap.copy (m : AffineMap) : AffineMap :=
  ⟨m.raw⟩

/-- `AffineMap::num_results` (affine_map.rs:161-163). -/
def AffineMap.num_results (m : AffineMap) : Int :=
  mlirAffineMapGetNumResults m.raw

/-- `AffineMap::get_result` (affine_map.rs:175-177). -/
def AffineMap.get_result (m : AffineMap) (pos : Int) : AffineExpr :=
  AffineExpr.from_raw (mlirAffineMapGetResult m.raw pos)

/-- `AffineMap::major_sub_map` (affine_map.rs:201-203). -/
def AffineMap.major_sub_map (m : AffineMap) (num_results : Int) : AffineMap :=
  AffineMap.from_raw (mlirAffineMapGetMajorSubMap m.raw num_results)

/-- `AffineMap::minor_sub_map` (affine_map.rs:209-211). -/
def AffineMap.minor_sub_map (m : AffineMap) (num_results : Int) : AffineMap :=
  AffineMap.from_raw (mlirAffineMapGetMinorSubMap m.raw num_results)

/-- The `PartialEq` impl for `AffineMap` (affine_map.rs:237-241):
equality delegated to the foreign deep comparison. -/
def AffineMap.eq (lhs rhs : AffineMap) : Bool :=
  mlirAffineMapEqual lhs.raw rhs.raw

/-- The ordered result list of a wrapped map, as read through
`get_result(0) .. get_result(num_results - 1)`; the null sentinel has no
results. -/
def AffineMap.result_exprs (m : AffineMap) : List MlirAffineExpr :=
  match m.raw with
  | .null => []
  | .interned d => d.results

/-- Modelled from the spec: the foreign integer-set handle value — either
the canonically empty set of a given arity ("canonical empty set, e.g.,
the set returned by mlirIntegerSetEmptyGet", integer_set.rs:97-98) or an
interned system of constraints, each paired with its equality flag. -/
inductive MlirIntegerSet where
  | canonicalEmpty (numDims numSymbols : Int)
  | interned (numDims numSymbols : Int) (constraints : List (MlirAffineExpr × Bool))
deriving DecidableEq, Repr

/-- Modelled from the spec: "Gets or creates a new canonically empty
integer set with the given number of dimensions and symbols in the given
context" (integer_set.rs:53-54). -/
def mlirIntegerSetEmptyGet (_context : Context) (numDims numSymbols : Int) : MlirIntegerSet :=
  .canonicalEmpty numDims numSymbols

/-- Modelled from the spec: "Checks whether the given set is a canonical
empty set" (integer_set.rs:97-98) — a canonical-empty check, not a
zero-constraint check (spec §4.3). -/
def mlirIntegerSetIsCanonicalEmpty : MlirIntegerSet → Bool
  | .canonicalEmpty _ _ => true
  | .interned _ _ _ => false

/-- Modelled from the spec: "Returns the number of constraints (equalities
+ inequalities) in the given set" (integer_set.rs:66-67); per spec §8 the
canonically empty set reports zero constraints. -/
def mlirIntegerSetGetNumConstraints : MlirIntegerSet → Int
  | .canonicalEmpty _ _ => 0
  | .interned _ _ cs => cs.length

/-- The `IntegerSet` wrapper of `src/melior/src/ir/type/integer_set.rs`:
a raw foreign handle paired with a phantom context lifetime. -/
structure IntegerSet where
  raw : MlirIntegerSet
deriving DecidableEq, Repr

/-- The inline raw-wrapping construction `Self { raw, _context }` used by
`IntegerSet::new` and `IntegerSet::empty` (integer_set.rs:42-45, 59-62);
`IntegerSet` exposes no named `from_raw`, this is its wrapping step. -/
def IntegerSet.wrap_raw (raw : MlirIntegerSet) : IntegerSet :=
  ⟨raw⟩

/-- `IntegerSet::to_raw` (integer_set.rs:49-51). -/
def IntegerSet.to_raw (s : IntegerSet) : MlirIntegerSet :=
  s.raw

/-- The derived `Copy` of `IntegerSet` (integer_set.rs:12): a field-wise
bit copy of the wrapper struct. -/
def IntegerSet.copy (s : IntegerSet) : IntegerSet :=
  ⟨s.raw⟩

/-- `IntegerSet::empty` (integer_set.rs:55-64). -/
def IntegerSet.empty (context : Context) (num_dims num_symbols : Int) : IntegerSet :=
  IntegerSet.wrap_raw (mlirIntegerSetEmptyGet context num_dims num_symbols)

/-- `IntegerSet::num_constraints` (integer_set.rs:68-70). -/
def IntegerSet.num_constraints (s : IntegerSet) : Int :=
  mlirIntegerSetGetNumConstraints s.raw

/-- `IntegerSet::is_empty` (integer_set.rs:99-101). -/
def IntegerSet.is_empty (s : IntegerSet) : Bool :=
  mlirIntegerSetIsCanonicalEmpty s.raw

/-- The argument record `IntegerSet::new` marshals for the foreign
constructor `mlirIntegerSetGet` (integer_set.rs:33-40): the arity counts,
the constraint count, the constraint buffer and the equality-flag buffer
actually passed (a buffer is the consecutive values behind the passed
pointer). -/
structure IntegerSetGetCall where
  numDims : Int
  numSymbols : Int
  numConstraints : Int
  constraintsBuf : List MlirAffineExpr
  eqFlagsBuf : List Bool
deriving DecidableEq, Repr

/-- The foreign contract of `mlirIntegerSetGet`, from the binding's own
doc comment (integer_set.rs:20-24): "Both `constraints` and `eqFlags` are
expected to point to at least `numConstraint` consecutive values". -/
def IntegerSetGetCall.meetsForeignContract (c : IntegerSetGetCall) : Prop :=
  c.numConstraints ≤ (c.constraintsBuf.length : Int) ∧
    c.numConstraints ≤ (c.eqFlagsBuf.length : Int)

instance (c : IntegerSetGetCall) : Decidable c.meetsForeignContract := by
  unfold IntegerSetGetCall.meetsForeignContract
  infer_instance

/-- The arguments `IntegerSet::new` (integer_set.rs:25-47) passes to
`mlirIntegerSetGet`: `constraints.len()` as the constraint count, the
`constraints` vector as the constraint buffer, and `&eq_flags` — a pointer
to the single `bool` parameter, i.e. a one-element buffer — as the
equality-flag buffer. -/
def IntegerSet.new_marshal (_context : Context) (num_dims num_symbols : Int)
    (constraints : List MlirAffineExpr) (eq_flags : Bool) : IntegerSetGetCall :=
  { numDims := num_dims
    numSymbols := num_symbols
    numConstraints := constraints.length
    constraintsBuf := constraints
    eqFlagsBuf := [eq_flags] }

/-- The buffers a list-taking binding function touches: the owned vector
parameter it receives (`arg`), and any buffer its body creates for
marshalling — a `collect()`ed vector or a `clone()` (`marshal`). -/
inductive Buffer where
  | arg
  | marshal
deriving DecidableEq, Repr

/-- One step in the execution of a binding function's body, in program
order: a buffer coming alive, a buffer being dropped, or the foreign call
reading through the pointer into a buffer. -/
inductive MarshalEvent where
  | alloc (b : Buffer)
  | free (b : Buffer)
  | foreignCall (reads : Buffer)
deriving DecidableEq, Repr

/-- Whether a buffer is alive after the given prefix of events: it has
been allocated and not yet freed. -/
def bufferAlive (b : Buffer) (pre : List MarshalEvent) : Bool :=
  pre.contains (.alloc b) && !(pre.contains (.free b))

/-- Whether every foreign call in the remaining events reads a buffer that
is alive at that call, given the events already executed. -/
def callsLiveFrom : List MarshalEvent → List MarshalEvent → Bool
  | _, [] => true
  | pre, .foreignCall b :: rest =>
    bufferAlive b pre && callsLiveFrom (pre ++ [.foreignCall b]) rest
  | pre, e :: rest => callsLiveFrom (pre ++ [e]) rest

/-- Whether every foreign call in a trace reads a buffer whose storage is
alive for the duration of that call. -/
def callsLive (trace : List MarshalEvent) : Bool :=
  callsLiveFrom [] trace

/-- The event trace of `AffineMap::from` (affine_map.rs:35-54): the
`affine_exprs` parameter is alive on entry; `expr_ptr` is a let-bound
local vector collected from it, so it is still alive when
`mlirAffineMapGet` reads `expr_ptr.as_mut_ptr()`, and is dropped at the
end of the function body together with the parameter. -/
def AffineMap.from_marshal_trace : List MarshalEvent :=
  [.alloc .arg, .alloc .marshal, .foreignCall .marshal, .free .marshal, .free .arg]

/-- The event trace of `AffineMap::from_permutation` (affine_map.rs:86-95):
`let permutation = permutation.clone().as_mut_ptr();` clones the parameter
into an unnamed temporary vector, takes a raw pointer into it, and the
temporary is dropped at the end of that statement — before
`mlirAffineMapPermutationGet` reads the pointer. -/
def AffineMap.from_permutation_marshal_trace : List MarshalEvent :=
  [.alloc .arg, .alloc .marshal, .free .marshal, .foreignCall .marshal, .free .arg]

/-- The event trace of `AffineMap::sub_map` (affine_map.rs:192-195):
`let result_pos_ptr = result_pos.clone().as_mut_ptr();` clones the
parameter into an unnamed temporary vector dropped at the end of that
statement — before `mlirAffineMapGetSubMap` reads the pointer. -/
def AffineMap.sub_map_marshal_trace : List MarshalEvent :=
  [.alloc .arg, .alloc .marshal, .free .marshal, .foreignCall .marshal, .free .arg]

/-- The event trace of `IntegerSet::new` (integer_set.rs:25-47): the
foreign call reads `constraints.as_ptr()` directly from the `constraints`
parameter, which is alive until the end of the function body. -/
def IntegerSet.new_marshal_trace : List MarshalEvent :=
  [.alloc .arg, .foreignCall .arg, .free .arg]

/-- The formatter state threaded through the printing bridge: the chunks
the caller-supplied sink accepted so far, and the pending `fmt::Result`
(`true` for `Ok(())`). -/
structure FmtData where
  written : List String
  res : Bool
deriving DecidableEq, Repr

/-- What one callback invocation can do: return normally with an updated
state, or unwind (panic) across the foreign boundary. -/
inductive CallbackOutcome where
  | ret (d : FmtData)
  | unwound
deriving DecidableEq, Repr

/-- Modelled from the spec: the sink callback handed to the foreign print
routine (`utility::print_callback`, outside src/).  The caller-supplied
sink's behaviour is `sink chunk` — whether writing that chunk succeeds.
The callback skips writing once a failure is recorded, records a failed
write in the result slot instead of unwinding, and never unwinds. -/
def print_callback (sink : String → Bool) (d : FmtData) (chunk : String) : CallbackOutcome :=
  if d.res = false then .ret d
  else if sink chunk then .ret ⟨d.written ++ [chunk], true⟩
  else .ret ⟨d.written, false⟩

/-- Modelled from the spec: the foreign print routine invokes the supplied
callback once per textual chunk of the rendered map, threading the user
data pointer through; foreign code must not be unwound through, so an
unwinding callback poisons the whole call. -/
def mlirAffineMapPrint (chunks : List String) (sink : String → Bool)
    (d : FmtData) : CallbackOutcome :=
  chunks.foldl
    (fun out chunk =>
      match out with
      | .unwound => .unwound
      | .ret d => print_callback sink d chunk)
    (.ret d)

/-- The `Display` impl for `AffineMap` (affine_map.rs:245-259): start from
`(formatter, Ok(()))`, let the foreign print routine drive the callback
over the rendered chunks, and return the recorded result slot.  `none`
models an unwind escaping across the foreign call boundary. -/
def AffineMap.display_fmt (chunks : List String) (sink : String → Bool) : Option Bool :=
  match mlirAffineMapPrint chunks sink ⟨[], true⟩ with
  | .ret d => some d.res
  | .unwound => none

/-! Supporting lemmas. -/

/-- Reading the whole result list element-wise through `get_result` agrees
with `result_exprs`: in-bounds positions index the results tuple. -/
theorem AffineMap.get_result_agrees (d : AffineMapData) (i : Nat)
    (h : i < d.results.length) :
    (AffineMap.from_raw (.interned d)).get_result i =
      AffineExpr.from_raw ((AffineMap.from_raw (.interned d)).result_exprs.get ⟨i, h⟩) := by
  simp [AffineMap.get_result, mlirAffineMapGetResult, AffineMap.from_raw,
    AffineMap.result_exprs, List.getD_eq_getElem?_getD, List.getElem?_eq_getElem h,
    List.get_eq_getElem]

/-- The null sentinel wrapped has no result expressions. -/
theorem AffineMap.result_exprs_null :
    (AffineMap.from_raw .null).result_exprs = [] := rfl

/-- An interned map wrapped has its results tuple as result expressions. -/
theorem AffineMap.result_exprs_interned (d : AffineMapData) :
    (AffineMap.from_raw (.interned d)).result_exprs = d.results := rfl

/-- The foreign print routine always returns normally, with the result
slot recording whether the initial result was still ok and every chunk's
write into the caller-supplied sink succeeded. -/
theorem mlirAffineMapPrint_ret (sink : String → Bool) :
    ∀ (chunks : List String) (d : FmtData),
      ∃ w, mlirAffineMapPrint chunks sink d = .ret ⟨w, d.res && chunks.all sink⟩ := by
  intro chunks
  induction chunks with
  | nil =>
    intro d
    exact ⟨d.written, by simp [mlirAffineMapPrint]⟩
  | cons c cs ih =>
    intro d
    have hstep : ∀ d₁ : FmtData, print_callback sink d c = .ret d₁ →
        mlirAffineMapPrint (c :: cs) sink d = mlirAffineMapPrint cs sink d₁ := by
      intro d₁ h
      simp [mlirAffineMapPrint, h]
    cases hres : d.res with
    | false =>
      obtain ⟨w, hw⟩ := ih d
      refine ⟨w, ?_⟩
      rw [hstep d (by simp [print_callback, hres]), hw]
      simp [hres]
    | true =>
      cases hc : sink c with
      | false =>
        obtain ⟨w, hw⟩ := ih ⟨d.written, false⟩
        refine ⟨w, ?_⟩
        rw [hstep ⟨d.written, false⟩ (by simp [print_callback, hres, hc]), hw]
        simp [hres, hc]
      | true =>
        obtain ⟨w, hw⟩ := ih ⟨d.written ++ [c], true⟩
        refine ⟨w, ?_⟩
        rw [hstep ⟨d.written ++ [c], true⟩ (by simp [print_callback, hres, hc]), hw]
        simp [hres, hc]

/-! The claims. -/

/-- C1: `IntegerSet::new` accepts the equality/inequality classification as
a single boolean applied uniformly to the whole constraint list: the
marshalled foreign call carries `constraints.len()` as the constraint
count and a one-element flag buffer (the pointer `&eq_flags`), regardless
of how many constraints are supplied — so with two or more constraints the
foreign contract's requirement of one flag per constraint is not met. -/
theorem c1_single_eq_flag_uniform (context : Context) (num_dims num_symbols : Int)
    (constraints : List MlirAffineExpr) (eq_flags : Bool) :
    (IntegerSet.new_marshal context num_dims num_symbols constraints eq_flags).eqFlagsBuf
        = [eq_flags] ∧
    (IntegerSet.new_marshal context num_dims num_symbols constraints eq_flags).numConstraints
        = (constraints.length : Int) ∧
    (2 ≤ constraints.length →
      ¬ (IntegerSet.new_marshal context num_dims num_symbols
          constraints eq_flags).meetsForeignContract) := by
  refine ⟨rfl, rfl, fun h2 hc => ?_⟩
  have h := hc.2
  simp [IntegerSet.new_marshal] at h
  omega

/-- C1 witness: with two constraints, the marshalled call carries a single
flag, a count of two, and violates the foreign per-constraint contract. -/
theorem c1_single_eq_flag_uniform_witness :
    (IntegerSet.new_marshal ⟨0⟩ 2 0 [.dim 0, .dim 1] true).eqFlagsBuf = [true] ∧
    (IntegerSet.new_marshal ⟨0⟩ 2 0 [.dim 0, .dim 1] true).numConstraints
        = (([MlirAffineExpr.dim 0, .dim 1] : List MlirAffineExpr).length : Int) ∧
    ¬ (IntegerSet.new_marshal ⟨0⟩ 2 0 [.dim 0, .dim 1] true).meetsForeignContract := by
  have h := c1_single_eq_flag_uniform ⟨0⟩ 2 0 [.dim 0, .dim 1] true
  exact ⟨h.1, h.2.1, h.2.2 (by decide)⟩

/-- C2: evaluating the marshalling traces of the four list-taking
operations shows the liveness obligation holds for `AffineMap::from` and
`IntegerSet::new` but fails for `AffineMap::from_permutation` and
`AffineMap::sub_map`, whose cloned marshal buffer is dropped before the
foreign call reads it. -/
theorem c2_marshal_buffer_liveness_eval :
    callsLive AffineMap.from_marshal_trace = true ∧
    callsLive IntegerSet.new_marshal_trace = true ∧
    callsLive AffineMap.from_permutation_marshal_trace = false ∧
    callsLive AffineMap.sub_map_marshal_trace = false := by
  decide

/-- C3: for `0 ≤ n ≤ num_results`, the result expressions of
`major_sub_map(n)` followed by those of `minor_sub_map(num_results - n)`
recover, in order, the full result list of the original map (the null
marker arising at either degenerate end contributing no results). -/
theorem c3_major_minor_recover (d : AffineMapData) (n : Int)
    (h0 : 0 ≤ n)
    (h1 : n ≤ (AffineMap.from_raw (.interned d)).num_results) :
    ((AffineMap.from_raw (.interned d)).major_sub_map n).result_exprs ++
      ((AffineMap.from_raw (.interned d)).minor_sub_map
        ((AffineMap.from_raw (.interned d)).num_results - n)).result_exprs =
      (AffineMap.from_raw (.interned d)).result_exprs := by
  have hR : (AffineMap.from_raw (.interned d)).num_results = (d.results.length : Int) := rfl
  rw [hR] at h1 ⊢
  by_cases hn : n = 0
  · subst hn
    have hmaj : (AffineMap.from_raw (.interned d)).major_sub_map 0 =
        AffineMap.from_raw .null := by
      simp [AffineMap.major_sub_map, AffineMap.from_raw, mlirAffineMapGetMajorSubMap]
    by_cases hlen : d.results.length = 0
    · have hnil : d.results = [] := List.length_eq_zero.mp hlen
      have hmin : (AffineMap.from_raw (.interned d)).minor_sub_map
          ((d.results.length : Int) - 0) = AffineMap.from_raw .null := by
        simp [AffineMap.minor_sub_map, AffineMap.from_raw, mlirAffineMapGetMinorSubMap, hlen]
      rw [hmaj, hmin, AffineMap.result_exprs_null, AffineMap.result_exprs_interned, hnil]
      rfl
    · have hmin : (AffineMap.from_raw (.interned d)).minor_sub_map
          ((d.results.length : Int) - 0) = AffineMap.from_raw (.interned d) := by
        simp only [AffineMap.minor_sub_map, AffineMap.from_raw, mlirAffineMapGetMinorSubMap]
        rw [if_neg (by omega), if_pos (by omega)]
      rw [hmaj, hmin, AffineMap.result_exprs_null, AffineMap.result_exprs_interned]
      rfl
  · by_cases hfull : (d.results.length : Int) ≤ n
    · have hmaj : (AffineMap.from_raw (.interned d)).major_sub_map n =
          AffineMap.from_raw (.interned d) := by
        simp only [AffineMap.major_sub_map, AffineMap.from_raw, mlirAffineMapGetMajorSubMap]
        rw [if_neg hn, if_pos hfull]
      have hzero : (d.results.length : Int) - n = 0 := by omega
      have hmin : (AffineMap.from_raw (.interned d)).minor_sub_map
          ((d.results.length : Int) - n) = AffineMap.from_raw .null := by
        simp only [AffineMap.minor_sub_map, AffineMap.from_raw, mlirAffineMapGetMinorSubMap]
        rw [if_pos hzero]
      rw [hmaj, hmin, AffineMap.result_exprs_null, AffineMap.result_exprs_interned]
      simp
    · have hmaj : (AffineMap.from_raw (.interned d)).major_sub_map n =
          AffineMap.from_raw (.interned ⟨d.dimCount, d.symbolCount,
            d.results.take n.toNat⟩) := by
        simp only [AffineMap.major_sub_map, AffineMap.from_raw, mlirAffineMapGetMajorSubMap]
        rw [if_neg hn, if_neg hfull]
      have hmzero : ¬ ((d.results.length : Int) - n = 0) := by omega
      have hmfull : ¬ ((d.results.length : Int) ≤ (d.results.length : Int) - n) := by omega
      have hmin : (AffineMap.from_raw (.interned d)).minor_sub_map
          ((d.results.length : Int) - n) =
          AffineMap.from_raw (.interned ⟨d.dimCount, d.symbolCount,
            d.results.drop (d.results.length - ((d.results.length : Int) - n).toNat)⟩) := by
        simp only [AffineMap.minor_sub_map, AffineMap.from_raw, mlirAffineMapGetMinorSubMap]
        rw [if_neg hmzero, if_neg hmfull]
      rw [hmaj, hmin, AffineMap.result_exprs_interned, AffineMap.result_exprs_interned,
        AffineMap.result_exprs_interned]
      have harith : d.results.length - ((d.results.length : Int) - n).toNat = n.toNat := by
        omega
      rw [harith, List.take_append_drop]

/-- C3 witness: a two-result map split at n = 1 is recovered whole. -/
theorem c3_major_minor_recover_witness :
    (0 : Int) ≤ 1 ∧
    (1 : Int) ≤ (AffineMap.from_raw (.interned ⟨2, 0, [.dim 0, .dim 1]⟩)).num_results ∧
    ((AffineMap.from_raw (.interned ⟨2, 0, [.dim 0, .dim 1]⟩)).major_sub_map 1).result_exprs ++
      ((AffineMap.from_raw (.interned ⟨2, 0, [.dim 0, .dim 1]⟩)).minor_sub_map
        ((AffineMap.from_raw (.interned ⟨2, 0, [.dim 0, .dim 1]⟩)).num_results - 1)).result_exprs =
      (AffineMap.from_raw (.interned ⟨2, 0, [.dim 0, .dim 1]⟩)).result_exprs :=
  ⟨by decide, by decide,
    c3_major_minor_recover ⟨2, 0, [.dim 0, .dim 1]⟩ 1 (by decide) (by decide)⟩

/-- C4 counterexample: on a zero-result map and n = 0 the claim's
"n ≥ num_results yields the original map" clause fails — the zero case
takes precedence and yields the null marker, which the delegated equality
distinguishes from the original map. -/
theorem c4_degenerate_counterexample :
    (0 : Int) ≥ (AffineMap.from_raw (.interned ⟨0, 0, []⟩)).num_results ∧
    AffineMap.eq ((AffineMap.from_raw (.interned ⟨0, 0, []⟩)).major_sub_map 0)
        (AffineMap.from_raw (.interned ⟨0, 0, []⟩)) = false ∧
    AffineMap.eq ((AffineMap.from_raw (.interned ⟨0, 0, []⟩)).minor_sub_map 0)
        (AffineMap.from_raw (.interned ⟨0, 0, []⟩)) = false := by
  decide

/-- C4 (amended): for every map, `major_sub_map(0)` and `minor_sub_map(0)`
yield the null marker; and for every n ≥ 1 with n ≥ num_results,
`major_sub_map(n)` and `minor_sub_map(n)` yield the original map unchanged
under the delegated equality — the n = 0 null rule taking precedence over
the n ≥ num_results rule when both apply. -/
theorem c4_degenerate_amended (m : AffineMap) (d : AffineMapData) (n : Int)
    (h1 : 1 ≤ n)
    (hge : (AffineMap.from_raw (.interned d)).num_results ≤ n) :
    (m.major_sub_map 0).to_raw = .null ∧
    (m.minor_sub_map 0).to_raw = .null ∧
    AffineMap.eq ((AffineMap.from_raw (.interned d)).major_sub_map n)
        (AffineMap.from_raw (.interned d)) = true ∧
    AffineMap.eq ((AffineMap.from_raw (.interned d)).minor_sub_map n)
        (AffineMap.from_raw (.interned d)) = true := by
  have hn : ¬ (n = 0) := by omega
  have hfull : (d.results.length : Int) ≤ n := hge
  refine ⟨?_, ?_, ?_, ?_⟩
  · rcases m with ⟨_ | d'⟩ <;>
      simp [AffineMap.major_sub_map, AffineMap.to_raw, AffineMap.from_raw,
        mlirAffineMapGetMajorSubMap]
  · rcases m with ⟨_ | d'⟩ <;>
      simp [AffineMap.minor_sub_map, AffineMap.to_raw, AffineMap.from_raw,
        mlirAffineMapGetMinorSubMap]
  · simp only [AffineMap.major_sub_map, AffineMap.from_raw, mlirAffineMapGetMajorSubMap]
    rw [if_neg hn, if_pos hfull]
    simp [AffineMap.eq, mlirAffineMapEqual]
  · simp only [AffineMap.minor_sub_map, AffineMap.from_raw, mlirAffineMapGetMinorSubMap]
    rw [if_neg hn, if_pos hfull]
    simp [AffineMap.eq, mlirAffineMapEqual]

/-- C4 witness: the null and identity degenerate cases at concrete maps,
with n = 5 on a one-result map. -/
theorem c4_degenerate_amended_witness :
    ((AffineMap.from_raw .null).major_sub_map 0).to_raw = .null ∧
    ((AffineMap.from_raw .null).minor_sub_map 0).to_raw = .null ∧
    AffineMap.eq ((AffineMap.from_raw (.interned ⟨1, 0, [.dim 0]⟩)).major_sub_map 5)
        (AffineMap.from_raw (.interned ⟨1, 0, [.dim 0]⟩)) = true ∧
    AffineMap.eq ((AffineMap.from_raw (.interned ⟨1, 0, [.dim 0]⟩)).minor_sub_map 5)
        (AffineMap.from_raw (.interned ⟨1, 0, [.dim 0]⟩)) = true :=
  c4_degenerate_amended (AffineMap.from_raw .null) ⟨1, 0, [.dim 0]⟩ 5
    (by decide) (by decide)

/-- C5: every binary constructor — add, multiply, modulus, floor_div,
ceil_div — yields an expression that reports `is_binary`, and whose
`binary_lhs`/`binary_rhs` recover the operands under the delegated
equality. -/
theorem c5_binary_constructors_recover (lhs rhs : AffineExpr) :
    ((AffineExpr.add lhs rhs).is_binary = true ∧
      AffineExpr.eq (AffineExpr.add lhs rhs).binary_lhs lhs = true ∧
      AffineExpr.eq (AffineExpr.add lhs rhs).binary_rhs rhs = true) ∧
    ((AffineExpr.multiply lhs rhs).is_binary = true ∧
      AffineExpr.eq (AffineExpr.multiply lhs rhs).binary_lhs lhs = true ∧
      AffineExpr.eq (AffineExpr.multiply lhs rhs).binary_rhs rhs = true) ∧
    ((AffineExpr.modulus lhs rhs).is_binary = true ∧
      AffineExpr.eq (AffineExpr.modulus lhs rhs).binary_lhs lhs = true ∧
      AffineExpr.eq (AffineExpr.modulus lhs rhs).binary_rhs rhs = true) ∧
    ((AffineExpr.floor_div lhs rhs).is_binary = true ∧
      AffineExpr.eq (AffineExpr.floor_div lhs rhs).binary_lhs lhs = true ∧
      AffineExpr.eq (AffineExpr.floor_div lhs rhs).binary_rhs rhs = true) ∧
    ((AffineExpr.ceil_div lhs rhs).is_binary = true ∧
      AffineExpr.eq (AffineExpr.ceil_div lhs rhs).binary_lhs lhs = true ∧
      AffineExpr.eq (AffineExpr.ceil_div lhs rhs).binary_rhs rhs = true) := by
  refine ⟨⟨rfl, ?_, ?_⟩, ⟨rfl, ?_, ?_⟩, ⟨rfl, ?_, ?_⟩, ⟨rfl, ?_, ?_⟩, ⟨rfl, ?_, ?_⟩⟩ <;>
    simp [AffineExpr.eq, mlirAffineExprEqual, AffineExpr.binary_lhs, AffineExpr.binary_rhs,
      AffineExpr.add, AffineExpr.multiply, AffineExpr.modulus, AffineExpr.floor_div,
      AffineExpr.ceil_div, AffineExpr.from_raw, AffineExpr.to_raw,
      mlirAffineAddExprGet, mlirAffineMulExprGet, mlirAffineModExprGet,
      mlirAffineFloorDivExprGet, mlirAffineCeilDivExprGet,
      mlirAffineBinaryOpExprGetLHS, mlirAffineBinaryOpExprGetRHS]

/-- C6: constructing a dimension expression at a valid position within
`[0, num_dimensions)` and reading back its position returns the original
position. -/
theorem c6_dimension_position_round_trip (context : Context)
    (num_dimensions position : Int)
    (h0 : 0 ≤ position) (h1 : position < num_dimensions) :
    (AffineExpr.new_dimension context position).dimension_position = position :=
  rfl

/-- C6 witness: position 1 of 2 dimensions round-trips. -/
theorem c6_dimension_position_round_trip_witness :
    (AffineExpr.new_dimension ⟨0⟩ 1).dimension_position = 1 :=
  c6_dimension_position_round_trip ⟨0⟩ 2 1 (by decide) (by decide)

/-- C7: constructing a constant expression with any i64 value and reading
back `constant_value` returns the value exactly. -/
theorem c7_constant_value_round_trip (context : Context) (v : Int)
    (hlo : -(2 ^ 63) ≤ v) (hhi : v < 2 ^ 63) :
    (AffineExpr.new_constant context v).constant_value = v :=
  rfl

/-- C7 witness: the value -42 round-trips exactly. -/
theorem c7_constant_value_round_trip_witness :
    (AffineExpr.new_constant ⟨0⟩ (-42)).constant_value = -42 :=
  c7_constant_value_round_trip ⟨0⟩ (-42) (by decide) (by decide)

/-- C8: for every context and arities, the canonically empty integer set
reports `is_empty` and zero constraints. -/
theorem c8_empty_set_canonical (context : Context) (num_dims num_symbols : Int) :
    (IntegerSet.empty context num_dims num_symbols).is_empty = true ∧
    (IntegerSet.empty context num_dims num_symbols).num_constraints = 0 :=
  ⟨rfl, rfl⟩

/-- C9: for any sequence of chunks the foreign print routine emits and any
caller-supplied sink behaviour, the `Display` rendering never lets an
unwind escape across the foreign call boundary, and it returns a failure
exactly when the sink failed on some chunk. -/
theorem c9_display_propagates_failure (chunks : List String) (sink : String → Bool) :
    AffineMap.display_fmt chunks sink ≠ none ∧
    (AffineMap.display_fmt chunks sink = some false ↔ ∃ c ∈ chunks, sink c = false) := by
  obtain ⟨w, hw⟩ := mlirAffineMapPrint_ret sink chunks ⟨[], true⟩
  constructor
  · simp [AffineMap.display_fmt, hw]
  · simp only [AffineMap.display_fmt, hw, Bool.true_and]
    constructor
    · intro h
      have hall : chunks.all sink = false := by
        simpa using h
      rcases (by simpa [List.all_eq_true] using hall :
          ¬ ∀ c ∈ chunks, sink c = true) with h'
      push_neg at h'
      obtain ⟨c, hc, hcf⟩ := h'
      exact ⟨c, hc, by simpa using hcf⟩
    · intro ⟨c, hc, hcf⟩
      have hall : chunks.all sink = false := by
        rcases hall' : chunks.all sink with _ | _
        · rfl
        · exact absurd ((List.all_eq_true.mp hall') c hc) (by simp [hcf])
      simp [hall]

/-- C10: wrapping any raw handle and reading it back yields the same raw
handle for each wrapper family, and the derived bitwise copy preserves the
raw handle (for `IntegerSet`, which exposes no named `from_raw`, the
inline `Self { raw, .. }` wrapping step plays that role). -/
theorem c10_raw_round_trip_and_copy :
    (∀ r : MlirAffineExpr, (AffineExpr.from_raw r).to_raw = r) ∧
    (∀ r : MlirAffineMap, (AffineMap.from_raw r).to_raw = r) ∧
    (∀ r : MlirIntegerSet, (IntegerSet.wrap_raw r).to_raw = r) ∧
    (∀ e : AffineExpr, e.copy.to_raw = e.to_raw) ∧
    (∀ m : AffineMap, m.copy.to_raw = m.to_raw) ∧
    (∀ s : IntegerSet, s.copy.to_raw = s.to_raw) :=
  ⟨fun _ => rfl, fun _ => rfl, fun _ => rfl, fun _ => rfl, fun _ => rfl, fun _ => rfl⟩

end Melior
